import Mathlib

/-!
# Verification of the path sandbox and safe-edit engine

Shallow embedding of the security core of the MCP Defender secure filesystem
server (`src/index.ts`): the path validation logic (`validatePath`, the
inline working-directory check of `runTerminalCommandCLI`, the per-root loop
of `grepSearchCLI`) and the safe-edit engine (`applyFileEdits` and its
helpers).

JavaScript strings are modelled as `List Char`; the filesystem is modelled by
a `realpath` oracle (`Text → Option Text`, where `none` models the
`fs.realpath` call throwing).  JavaScript exceptions are modelled with
`Except`; a `try`/`catch` block that swallows an exception is translated by
merging the throwing branch into the `catch` branch, exactly as the control
flow of the source dictates.
-/

namespace SecureTools

/-- Text is modelled as a list of characters (a JavaScript string). -/
abbrev Text := List Char

/-- Turn a Lean string literal into modelled text. -/
def str (s : String) : Text := s.data

/-- JavaScript `s.startsWith(pre)`. -/
def startsWithText : Text → Text → Bool
  | _, [] => true
  | [], _ :: _ => false
  | c :: s, d :: p => (c == d) && startsWithText s p

/-- JavaScript `s.includes(pat)`. -/
def containsSub : Text → Text → Bool
  | [], pat => startsWithText [] pat
  | c :: rest, pat => startsWithText (c :: rest) pat || containsSub rest pat

/-- ECMA-262 `GetSubstitution` for a plain-string pattern (no capture
groups), which JavaScript applies to the replacement even when `replace` is
called with a string pattern, as src/index.ts line 408 does: `$$` yields a
dollar sign, `$&` the matched text, dollar-backtick the portion of the
content before the match, dollar-apostrophe the portion after it; any other
`$` (including `$n` with no captures and a trailing `$`) stays literal. -/
def getSubstitution (matched before after : Text) : Text → Text
  | [] => []
  | [c] => if c == '$' then ['$'] else [c]
  | c :: d :: rest2 =>
    if c == '$' then
      if d == '$' then '$' :: getSubstitution matched before after rest2
      else if d == '&' then matched ++ getSubstitution matched before after rest2
      else if d == Char.ofNat 96 then before ++ getSubstitution matched before after rest2
      else if d == Char.ofNat 39 then after ++ getSubstitution matched before after rest2
      else c :: getSubstitution matched before after (d :: rest2)
    else c :: getSubstitution matched before after (d :: rest2)

/-- The scanning loop of JavaScript `s.replace(pat, rep)` with a string
pattern: `pre` accumulates the already-scanned part of the content, which at
the match position is exactly the text preceding the match. -/
def replaceFirstFrom (pat rep : Text) : Text → Text → Text
  | pre, [] =>
    if startsWithText [] pat then
      pre ++ getSubstitution pat pre (List.drop pat.length []) rep
        ++ List.drop pat.length []
    else pre
  | pre, c :: rest =>
    if startsWithText (c :: rest) pat then
      pre ++ getSubstitution pat pre (List.drop pat.length (c :: rest)) rep
        ++ List.drop pat.length (c :: rest)
    else replaceFirstFrom pat rep (pre ++ [c]) rest

/-- JavaScript `s.replace(pat, rep)` with a plain-string pattern
(src/index.ts line 408): replace only the first occurrence of `pat`,
inserting the replacement with its `$`-substitution patterns expanded, and
return `s` unchanged when `pat` does not occur. -/
def replaceFirst (pat rep s : Text) : Text := replaceFirstFrom pat rep [] s

/-- The whitespace class matched by the JavaScript regex `\s` and by
`trim`/`trimStart`, restricted to the ASCII whitespace characters. -/
def isWS (c : Char) : Bool :=
  (c == ' ') || (c == '\t') || (c == '\n') || (c == '\r') || (c == '\x0b') || (c == '\x0c')

/-- JavaScript `s.trimStart()`. -/
def trimStart (t : Text) : Text := t.dropWhile isWS

/-- JavaScript `s.trimEnd()`. -/
def trimEnd (t : Text) : Text := (t.reverse.dropWhile isWS).reverse

/-- JavaScript `s.trim()`. -/
def trimText (t : Text) : Text := trimEnd (trimStart t)

/-- The leading whitespace of a line: JavaScript `line.match(/^\s*/)?.[0] || ''`
(src/index.ts lines 425, 428, 429). -/
def leadingWS (t : Text) : Text := t.takeWhile isWS

/-- JavaScript `s.split(sep)` for a one-character separator: always returns at
least one (possibly empty) piece. -/
def splitOnChar (sep : Char) : Text → List Text
  | [] => [[]]
  | c :: rest =>
    if c == sep then [] :: splitOnChar sep rest
    else
      match splitOnChar sep rest with
      | [] => [[c]]
      | h :: t => (c :: h) :: t

/-- `text.split('\n')` as used throughout the edit engine. -/
def splitLines (t : Text) : List Text := splitOnChar '\n' t

/-- `pieces.join(sep)`. -/
def joinWith (sep : Text) : List Text → Text
  | [] => []
  | [x] => x
  | x :: y :: t => x ++ sep ++ joinWith sep (y :: t)

/-- src/index.ts lines 377–379: `text.replace(/\r\n/g, '\n')`. -/
def normalizeLineEndings : Text → Text
  | [] => []
  | '\r' :: '\n' :: rest => '\n' :: normalizeLineEndings rest
  | c :: rest => c :: normalizeLineEndings rest

/-! ## Path model

Node's `path` module (an external collaborator of the source) is modelled for
POSIX paths as fed to it by the server: `path.resolve` output and
`fs.realpath` output are absolute paths without a trailing separator. -/

/-- `path.isAbsolute` for POSIX paths. -/
def isAbsolutePath (t : Text) : Bool := startsWithText t (str "/")

/-- Split a path into its non-empty segments (collapsing repeated `/`). -/
def splitSegs (p : Text) : List Text := (splitOnChar '/' p).filter (fun s => !s.isEmpty)

/-- Resolve `.` and `..` segments left to right against a stack of segments
already emitted (held reversed).  In absolute mode a `..` at the root is
dropped, as `path.resolve`/`path.normalize` do. -/
def normSegs (abs : Bool) : List Text → List Text → List Text
  | acc, [] => acc.reverse
  | acc, s :: rest =>
    if s = str "." then normSegs abs acc rest
    else if s = str ".." then
      match acc with
      | [] => if abs then normSegs abs [] rest else normSegs abs [str ".."] rest
      | a :: as =>
        if a = str ".." then normSegs abs (str ".." :: a :: as) rest
        else normSegs abs as rest
    else normSegs abs (s :: acc) rest

/-- Node `path.normalize` (src/index.ts lines 33–35, `normalizePath`) on the
canonical inputs the server feeds it. -/
def normalizePath (p : Text) : Text :=
  if isAbsolutePath p then str "/" ++ joinWith (str "/") (normSegs true [] (splitSegs p))
  else
    let segs := normSegs false [] (splitSegs p)
    if segs = [] then str "." else joinWith (str "/") segs

/-- Node `path.resolve` as used by the server: an absolute input stands alone,
a relative input is resolved against the process working directory
(src/index.ts lines 66–68 and 329). -/
def resolveAbs (cwd p : Text) : Text :=
  let combined := if isAbsolutePath p then p else cwd ++ str "/" ++ p
  str "/" ++ joinWith (str "/") (normSegs true [] (splitSegs combined))

/-- Node `path.dirname` for an absolute normalized path (src/index.ts
line 89). -/
def dirname (p : Text) : Text :=
  match (splitSegs p).dropLast with
  | [] => str "/"
  | ds => str "/" ++ joinWith (str "/") ds

/-- src/index.ts lines 37–42, `expandHome`: `~` and `~/...` are joined onto
the home directory (`path.join` normalizes the concatenation). -/
def expandHome (home p : Text) : Text :=
  if (p == str "~") || startsWithText p (str "~/") then
    normalizePath (home ++ List.drop 1 p)
  else p

/-- The process-wide state the server closes over: the working directory and
home directory, the startup `allowedDirectories` list (src/index.ts
lines 44–47), and the filesystem `fs.realpath` oracle, where `none` models
the call throwing (for example `ENOENT`). -/
structure Env where
  cwd : Text
  home : Text
  allowed : List Text
  realpath : Text → Option Text

/-- src/index.ts line 73 (and 82, 93): the containment test
`allowedDirectories.some(dir => p.startsWith(dir))` — a plain string-prefix
comparison. -/
def checkAllowed (allowed : List Text) (p : Text) : Bool :=
  allowed.any (fun dir => startsWithText p dir)

/-- Modelled from the spec: the *segment-aligned* containment test the
specification requires of `contains(candidatePath)` — the candidate equals a
boundary or extends it at a path-segment boundary.  Declared only to compare
the source's string-prefix test against the spec's requirement. -/
def segmentContains (dir p : Text) : Bool :=
  (p == dir) || startsWithText p (dir ++ str "/")

/-- The errors `validatePath` can actually deliver to its caller.  The two
other `throw` statements of the source (symlink target outside the sandbox,
line 84; parent directory outside the sandbox, line 95) are thrown inside
`try` blocks whose own `catch` swallows them, so they never reach the caller
and need no constructor. -/
inductive PathError where
  | accessDenied : PathError
  | parentNotFound : PathError
deriving DecidableEq

/-- src/index.ts lines 88–100: the fallback taken by the `catch` of the outer
`try`.  The inner `throw new Error("Access denied - parent directory …")` at
line 95 sits inside the inner `try`, so the inner `catch` at line 98 catches
it and replaces it with the `Parent directory does not exist` error: both
failure paths of this block therefore surface as `parentNotFound`. -/
def parentFallback (env : Env) (absolute : Text) : Except PathError Text :=
  let parentDir := dirname absolute
  match env.realpath parentDir with
  | some realParentPath =>
    if checkAllowed env.allowed (normalizePath realParentPath) then Except.ok absolute
    else Except.error PathError.parentNotFound
  | none => Except.error PathError.parentNotFound

/-- src/index.ts lines 64–102, `validatePath`.  The `throw` at line 84
(symlink target outside all boundaries) happens inside the outer `try`, so
the outer `catch` at line 87 catches it and runs the parent-directory
fallback — the same path taken when `fs.realpath` itself throws. -/
def validatePath (env : Env) (requestedPath : Text) : Except PathError Text :=
  let absolute := resolveAbs env.cwd (expandHome env.home requestedPath)
  if checkAllowed env.allowed (normalizePath absolute) then
    match env.realpath absolute with
    | some realPath =>
      if checkAllowed env.allowed (normalizePath realPath) then Except.ok realPath
      else parentFallback env absolute
    | none => parentFallback env absolute
  else Except.error PathError.accessDenied

/-- src/index.ts lines 324–336: the working-directory validation of
`runTerminalCommandCLI`.  It does *not* call `validatePath`: it checks that
some allowed directory is a string prefix of `path.resolve(workingDirectory)`
(no home expansion, no realpath/symlink resolution) and, when the check
passes, hands the *raw* `workingDirectory` string to `spawn`. -/
def runTerminalSelectCwd (env : Env) (workingDirectory : Option Text) :
    Except Text Text :=
  match workingDirectory with
  | none => Except.ok env.cwd
  | some wd =>
    if checkAllowed env.allowed (resolveAbs env.cwd wd) then Except.ok wd
    else Except.error (str "Working directory outside allowed directories")

/-- src/index.ts lines 256–289: the per-root loop of `grepSearchCLI`.  The
external `grep` child process is abstracted as the oracle `runGrep` (its
pattern, case flag and file filter only influence that oracle).  Any failure
inside the loop body — including a denial from `validatePath` — is caught by
`catch { continue; }`. -/
def grepLoop (env : Env) (runGrep : Text → Except Unit Text) (maxResults : Nat) :
    List Text → List Text → List Text
  | [], acc => acc
  | dir :: rest, acc =>
    if maxResults ≤ acc.length then acc
    else
      match validatePath env dir with
      | Except.error _ => grepLoop env runGrep maxResults rest acc
      | Except.ok _ =>
        match runGrep dir with
        | Except.error _ => grepLoop env runGrep maxResults rest acc
        | Except.ok output =>
          let lines := (splitLines (trimText output)).filter (fun l => !l.isEmpty)
          grepLoop env runGrep maxResults rest
            (acc ++ lines.take (maxResults - acc.length))

/-- src/index.ts lines 246–292, `grepSearchCLI`: search either the one
requested root or every allowed directory, and render `No matches found`
when the collected result list is empty. -/
def grepSearchCLI (env : Env) (runGrep : Text → Except Unit Text)
    (searchPath : Option Text) (maxResults : Nat) : Text :=
  let searchPaths := match searchPath with
    | some p => [p]
    | none => env.allowed
  let results := grepLoop env runGrep maxResults searchPaths []
  if results.isEmpty then str "No matches found" else joinWith (str "\n") results

/-! ## Safe-edit engine

src/index.ts lines 395–462, `applyFileEdits`.  The unified-diff rendering
(`createUnifiedDiff`, the backtick fencing) is produced by the external
`diff` library and is pure presentation; the embedding returns the modified
content, which is what is written to disk and what the claims are about. -/

/-- One entry of the `edits` array (src/index.ts lines 119–122). -/
structure EditOp where
  oldText : Text
  newText : Text
deriving DecidableEq

/-- The window comparison of src/index.ts lines 419–422: every old line must
equal the corresponding window line once both are trimmed. -/
def linesMatch : List Text → List Text → Bool
  | [], _ => true
  | _ :: _, [] => false
  | o :: os, w :: ws => (trimText o == trimText w) && linesMatch os ws

/-- Does the window of `oldLines.length` content lines starting at `i`
match? (src/index.ts lines 417–422). -/
def windowMatch (oldLines contentLines : List Text) (i : Nat) : Bool :=
  linesMatch oldLines ((contentLines.drop i).take oldLines.length)

/-- Scan indices `i, i+1, …` (`fuel` of them) and return the first index
satisfying `f` — the `for` loop of src/index.ts line 416 with its `break` on
the first match. -/
def findFrom (f : Nat → Bool) : Nat → Nat → Option Nat
  | _, 0 => none
  | i, fuel + 1 => if f i then some i else findFrom f (i + 1) fuel

/-- The index of the first matching window, if any: the loop runs for
`i ≤ contentLines.length - oldLines.length` and does not run at all when the
old text has more lines than the content (src/index.ts line 416). -/
def findMatchIndex (oldLines contentLines : List Text) : Option Nat :=
  if oldLines.length ≤ contentLines.length then
    findFrom (windowMatch oldLines contentLines) 0
      (contentLines.length - oldLines.length + 1)
  else none

/-- src/index.ts lines 426–435: rebuild replacement line `j`.  The first line
takes the matched line's original indentation; a later line whose old and new
counterparts both had indentation is shifted by the (zero-floored) indent
delta; otherwise it is kept verbatim. -/
def buildLine (originalIndent : Text) (oldLines : List Text) (j : Nat) (line : Text) : Text :=
  if j = 0 then originalIndent ++ trimStart line
  else
    let oldIndent := leadingWS (oldLines.getD j [])
    let newIndent := leadingWS line
    if !oldIndent.isEmpty && !newIndent.isEmpty then
      originalIndent ++ List.replicate (newIndent.length - oldIndent.length) ' ' ++ trimStart line
    else line

/-- JavaScript `Array.prototype.map` with the element index (the
`(line, j) => …` callback of src/index.ts line 426). -/
def mapWithIndex (f : Nat → Text → Text) : Nat → List Text → List Text
  | _, [] => []
  | k, l :: ls => f k l :: mapWithIndex f (k + 1) ls

/-- src/index.ts line 426: the full replacement block for a window match. -/
def buildNewLines (originalIndent : Text) (oldLines : List Text) (normalizedNew : Text) :
    List Text :=
  mapWithIndex (buildLine originalIndent oldLines) 0 (splitLines normalizedNew)

/-- The message of the `EditConflict` thrown at src/index.ts line 445,
carrying the offending (un-normalized) old text. -/
def conflictMessage (oldText : Text) : Text :=
  str "Could not find exact match for edit:\n" ++ oldText

/-- One iteration of the edit loop (src/index.ts lines 403–447): exact
substring replacement of the first occurrence when the normalized old text
occurs verbatim, otherwise the first (lowest-index) matching line window with
indentation-preserving reconstruction, otherwise the conflict error. -/
def applyOneEdit (content : Text) (e : EditOp) : Except Text Text :=
  let normalizedOld := normalizeLineEndings e.oldText
  let normalizedNew := normalizeLineEndings e.newText
  if containsSub content normalizedOld then
    Except.ok (replaceFirst normalizedOld normalizedNew content)
  else
    let oldLines := splitLines normalizedOld
    let contentLines := splitLines content
    match findMatchIndex oldLines contentLines with
    | some i =>
      let originalIndent := leadingWS (contentLines.getD i [])
      let newLines := buildNewLines originalIndent oldLines normalizedNew
      Except.ok (joinWith (str "\n")
        (contentLines.take i ++ newLines ++ contentLines.drop (i + oldLines.length)))
    | none => Except.error (conflictMessage e.oldText)

/-- src/index.ts lines 402–447: the edits are applied sequentially, each
against the progressively modified content; the first conflict aborts the
whole loop. -/
def applyEditsCore : Text → List EditOp → Except Text Text
  | content, [] => Except.ok content
  | content, e :: rest =>
    match applyOneEdit content e with
    | Except.ok m => applyEditsCore m rest
    | Except.error msg => Except.error msg

/-- src/index.ts lines 395–462, `applyFileEdits`, at the file level: the
first component is the file content on disk after the call (the
`fs.writeFile` at line 458 runs only on success and only when `dryRun` is
false), the second the outcome delivered to the caller (the modified content
on success — rendered as a diff by the external library — or the conflict
message). -/
def applyFileEdits (diskContent : Text) (edits : List EditOp) (dryRun : Bool) :
    Text × Except Text Text :=
  let content := normalizeLineEndings diskContent
  match applyEditsCore content edits with
  | Except.error msg => (diskContent, Except.error msg)
  | Except.ok modifiedContent =>
    (if dryRun then diskContent else modifiedContent, Except.ok modifiedContent)

/-! ## Concrete environments for the scenario theorems

Each environment fixes a working directory, home directory, boundary list and
a small filesystem (the `realpath` oracle). -/

/-- One boundary `/a/b`; the sibling directory `/a/bc` exists and is its own
realpath. -/
def envSiblingBoundary : Env :=
  ⟨str "/", str "/root", [str "/a/b"],
    fun q => if q = str "/a/bc" then some (str "/a/bc") else none⟩

/-- Working directory `/work`, home `/Users/alice`, boundary `/work`; the
filesystem resolves nothing. -/
def envTerminal : Env :=
  ⟨str "/work", str "/Users/alice", [str "/work"], fun _ => none⟩

/-- Boundary `/work`; `/work/link` is a symlink whose target `/outside/target`
lies outside the sandbox, and `/work` is a real directory. -/
def envSymlinkEscape : Env :=
  ⟨str "/", str "/root", [str "/work"],
    fun q =>
      if q = str "/work/link" then some (str "/outside/target")
      else if q = str "/work" then some (str "/work") else none⟩

/-- Boundary `/work`; `/work/data` is a symlink to `/private/data` (outside
the sandbox) and nothing else resolves, so `/work/data/new.txt` does not
exist. -/
def envParentRemap : Env :=
  ⟨str "/", str "/root", [str "/work"],
    fun q => if q = str "/work/data" then some (str "/private/data") else none⟩

/-- Boundary `/work`; `/work/sub` is a symlink to `/elsewhere/sub` (outside
the sandbox) and `/work/sub/file.txt` does not exist. -/
def envParentOutside : Env :=
  ⟨str "/", str "/root", [str "/work"],
    fun q => if q = str "/work/sub" then some (str "/elsewhere/sub") else none⟩

/-- Boundary `/work`, an existing real directory; `/work/new.txt` does not
exist yet. -/
def envExistingParent : Env :=
  ⟨str "/", str "/root", [str "/work"],
    fun q => if q = str "/work" then some (str "/work") else none⟩

/-! ## Helper lemmas -/

theorem startsWithText_refl (s : Text) : startsWithText s s = true := by
  induction s with
  | nil => rfl
  | cons c s ih => simp [startsWithText, ih]

theorem startsWithText_nil_right (t : Text) : startsWithText t [] = true := by
  cases t <;> rfl

theorem startsWithText_append_left (p t : Text) : startsWithText (p ++ t) p = true := by
  induction p with
  | nil => simpa using startsWithText_nil_right t
  | cons c p ih => simp [startsWithText, ih]

theorem containsSub_self (s : Text) : containsSub s s = true := by
  cases s with
  | nil => rfl
  | cons c rest => simp [containsSub, startsWithText_refl]

theorem replaceFirstFrom_startsWith (pat rep pre s : Text)
    (h : startsWithText s pat = true) :
    replaceFirstFrom pat rep pre s
      = pre ++ getSubstitution pat pre (List.drop pat.length s) rep
          ++ List.drop pat.length s := by
  cases s with
  | nil => simp [replaceFirstFrom, h]
  | cons c rest => simp [replaceFirstFrom, h]

theorem replaceFirst_whole (s rep : Text) :
    replaceFirst s rep s = getSubstitution s [] [] rep := by
  rw [replaceFirst, replaceFirstFrom_startsWith s rep [] s (startsWithText_refl s)]
  simp

theorem getSubstitution_no_dollar (m b a : Text) :
    ∀ rep : Text, '$' ∉ rep → getSubstitution m b a rep = rep := by
  intro rep
  induction rep with
  | nil => intro _; rfl
  | cons c rest ih =>
    intro h
    have hc : (c == '$') = false := by
      simp only [beq_eq_false_iff_ne, ne_eq]
      intro hcc
      exact h (by simp [hcc])
    cases rest with
    | nil => simp [getSubstitution, hc]
    | cons d rest2 =>
      rw [getSubstitution, if_neg (by simp [hc])]
      rw [ih (fun hm => h (by simp [hm]))]

theorem replaceFirstFrom_first_occ (pat b rep : Text) :
    ∀ (a pre : Text),
    (∀ k, k < a.length → startsWithText (List.drop k (a ++ (pat ++ b))) pat = false) →
    replaceFirstFrom pat rep pre (a ++ (pat ++ b))
      = pre ++ a ++ getSubstitution pat (pre ++ a) b rep ++ b := by
  intro a
  induction a with
  | nil =>
    intro pre _
    simp only [List.nil_append]
    rw [replaceFirstFrom_startsWith pat rep pre (pat ++ b) (startsWithText_append_left pat b)]
    simp [List.drop_left]
  | cons x a ih =>
    intro pre h
    have h0 : startsWithText (x :: (a ++ (pat ++ b))) pat = false := by
      have := h 0 (by simp)
      simpa using this
    simp only [List.cons_append]
    rw [replaceFirstFrom, if_neg (by simp [h0])]
    have hrec := ih (pre ++ [x]) (fun k hk => by
      have := h (k + 1) (by simpa using Nat.succ_lt_succ hk)
      simpa using this)
    rw [hrec]
    simp

theorem replaceFirst_first_occ (a pat b rep : Text)
    (h : ∀ k, k < a.length → startsWithText (List.drop k (a ++ (pat ++ b))) pat = false) :
    replaceFirst pat rep (a ++ (pat ++ b)) = a ++ (getSubstitution pat a b rep ++ b) := by
  rw [replaceFirst, replaceFirstFrom_first_occ pat b rep a [] h]
  simp

theorem applyEditsCore_append (l1 : List EditOp) (c : Text) (l2 : List EditOp) :
    applyEditsCore c (l1 ++ l2) =
      (applyEditsCore c l1).bind (fun m => applyEditsCore m l2) := by
  induction l1 generalizing c with
  | nil => simp [applyEditsCore, Except.bind]
  | cons e l1 ih =>
    simp only [List.cons_append, applyEditsCore]
    cases applyOneEdit c e with
    | ok m => simpa using ih m
    | error msg => simp [Except.bind]

theorem findFrom_spec (fuel : Nat) (f : Nat → Bool) :
    ∀ i r, findFrom f i fuel = some r →
      f r = true ∧ i ≤ r ∧ r < i + fuel ∧ ∀ j, i ≤ j → j < r → f j = false := by
  induction fuel with
  | zero => intro i r h; simp [findFrom] at h
  | succ fuel ih =>
    intro i r h
    rw [findFrom] at h
    by_cases hf : f i = true
    · rw [if_pos hf] at h
      obtain rfl : i = r := by simpa using h
      exact ⟨hf, Nat.le_refl i, by omega, fun j h1 h2 => by omega⟩
    · rw [if_neg hf] at h
      obtain ⟨h1, h2, h3, h4⟩ := ih (i + 1) r h
      refine ⟨h1, by omega, by omega, fun j hj1 hj2 => ?_⟩
      rcases Nat.eq_or_lt_of_le hj1 with rfl | hlt
      · simpa using hf
      · exact h4 j hlt hj2

theorem findMatchIndex_spec (oldLines contentLines : List Text) (i : Nat)
    (h : findMatchIndex oldLines contentLines = some i) :
    windowMatch oldLines contentLines i = true ∧
      (∀ j, j < i → windowMatch oldLines contentLines j = false) ∧
      i + oldLines.length ≤ contentLines.length := by
  rw [findMatchIndex] at h
  by_cases hle : oldLines.length ≤ contentLines.length
  · rw [if_pos hle] at h
    obtain ⟨h1, _, h3, h4⟩ := findFrom_spec _ _ 0 i h
    exact ⟨h1, fun j hj => h4 j (Nat.zero_le j) hj, by omega⟩
  · rw [if_neg hle] at h
    simp at h

theorem takeWhile_dropWhile_nil (p : Char → Bool) (x : Text) :
    (x.dropWhile p).takeWhile p = [] := by
  induction x with
  | nil => rfl
  | cons c rest ih =>
    by_cases hc : p c = true
    · simpa [List.dropWhile, hc] using ih
    · simp [List.dropWhile, List.takeWhile, hc]

theorem leadingWS_ws_append (w x : Text) (hw : ∀ c ∈ w, isWS c = true) :
    leadingWS (w ++ trimStart x) = w := by
  induction w with
  | nil => simpa [leadingWS, trimStart] using takeWhile_dropWhile_nil isWS x
  | cons c w ih =>
    have hc : isWS c = true := hw c (by simp)
    have hw' : ∀ d ∈ w, isWS d = true := fun d hd => hw d (by simp [hd])
    simp [leadingWS, List.takeWhile, hc] at ih ⊢
    exact ih hw'

theorem splitOnChar_ne_nil (sep : Char) (t : Text) : splitOnChar sep t ≠ [] := by
  cases t with
  | nil => simp [splitOnChar]
  | cons c rest =>
    rw [splitOnChar]
    by_cases hc : (c == sep) = true
    · simp [hc]
    · simp only [hc]
      cases splitOnChar sep rest <;> simp

theorem mapWithIndex_getD (f : Nat → Text → Text) (ls : List Text) :
    ∀ k j, j < ls.length → (mapWithIndex f k ls).getD j [] = f (k + j) (ls.getD j []) := by
  induction ls with
  | nil => intro k j h; simp at h
  | cons l ls ih =>
    intro k j h
    cases j with
    | zero => simp [mapWithIndex]
    | succ j =>
      have := ih (k + 1) j (by simpa using Nat.lt_of_succ_lt_succ h)
      simpa [mapWithIndex, Nat.add_assoc, Nat.add_comm 1 j] using this

theorem validatePath_outside (env : Env) (p : Text)
    (h : checkAllowed env.allowed
      (normalizePath (resolveAbs env.cwd (expandHome env.home p))) = false) :
    validatePath env p = Except.error PathError.accessDenied := by
  simp [validatePath, h]

theorem validatePath_to_fallback (env : Env) (p A : Text)
    (hA : A = resolveAbs env.cwd (expandHome env.home p))
    (h1 : checkAllowed env.allowed (normalizePath A) = true)
    (h2 : env.realpath A = none) :
    validatePath env p = parentFallback env A := by
  subst hA
  simp [validatePath, h1, h2]

theorem parentFallback_ok (env : Env) (A rpp : Text)
    (h : env.realpath (dirname A) = some rpp)
    (hc : checkAllowed env.allowed (normalizePath rpp) = true) :
    parentFallback env A = Except.ok A := by
  simp [parentFallback, h, hc]

theorem parentFallback_parent_outside (env : Env) (A rpp : Text)
    (h : env.realpath (dirname A) = some rpp)
    (hc : checkAllowed env.allowed (normalizePath rpp) = false) :
    parentFallback env A = Except.error PathError.parentNotFound := by
  simp [parentFallback, h, hc]

theorem parentFallback_parent_missing (env : Env) (A : Text)
    (h : env.realpath (dirname A) = none) :
    parentFallback env A = Except.error PathError.parentNotFound := by
  simp [parentFallback, h]

theorem grepSearchCLI_denied (env : Env) (rg : Text → Except Unit Text) (p : Text)
    (n : Nat) (err : PathError) (h : validatePath env p = Except.error err) :
    grepSearchCLI env rg (some p) n = str "No matches found" := by
  have hloop : grepLoop env rg n [p] [] = [] := by
    cases n with
    | zero => simp [grepLoop]
    | succ m => simp [grepLoop, h]
  simp [grepSearchCLI, hloop]

/-! ## Claim theorems -/

/-- Claim C1.  The source's containment test (src/index.ts line 73) is a
naive string-prefix check, not the path-segment-aligned test the claim
states: with boundary set `[/a/b]` the sibling directory `/a/bc` passes the
code's test, fails the spec's segment-aligned test, and is accepted end to
end by `validatePath`. -/
theorem C1_containment_not_segment_aligned :
    checkAllowed [str "/a/b"] (str "/a/bc") = true
    ∧ segmentContains (str "/a/b") (str "/a/bc") = false
    ∧ validatePath envSiblingBoundary (str "/a/bc") = Except.ok (str "/a/bc") :=
  ⟨by decide, by decide, by rfl⟩

/-- Claim C2, counterexample.  The working directory of
`run_terminal_command` is not validated by the Path Resolver: the inline
check of `runTerminalCommandCLI` accepts the caller-supplied `~` (because
`path.resolve` treats it as a literal directory name below the working
directory), while `validatePath` — which home-expands first — rejects the
same string with `AccessDenied`. -/
theorem C2_counterexample :
    runTerminalSelectCwd envTerminal (some (str "~")) = Except.ok (str "~")
    ∧ validatePath envTerminal (str "~") = Except.error PathError.accessDenied :=
  ⟨by rfl, by rfl⟩

/-- Claim C2 (amended).  Whatever directory `run_terminal_command` hands to
the process runner is the raw caller-supplied string, and the only check it
passed is the inline one: some allowed directory is a string prefix of
`path.resolve(workingDirectory)` — no home expansion, no realpath or symlink
resolution, no call to `validatePath`. -/
theorem C2_workingdir_inline_check (env : Env) (wd c : Text)
    (h : runTerminalSelectCwd env (some wd) = Except.ok c) :
    c = wd ∧ checkAllowed env.allowed (resolveAbs env.cwd wd) = true := by
  simp only [runTerminalSelectCwd] at h
  by_cases hc : checkAllowed env.allowed (resolveAbs env.cwd wd) = true
  · simp [hc] at h
    exact ⟨h.symm, hc⟩
  · simp [hc] at h

theorem C2_workingdir_inline_check_witness :
    checkAllowed [str "/work"] (resolveAbs (str "/work") (str "/work/sub")) = true :=
  (C2_workingdir_inline_check
    ⟨str "/work", str "/h", [str "/work"], fun _ => none⟩
    (str "/work/sub") (str "/work/sub") (by rfl)).2

/-- Claim C3.  First part (holds): when the normalized absolute form of the
request fails the code's containment test, `validatePath` answers
`AccessDenied` for every filesystem whatsoever — the check precedes any
`fs.realpath` call.  Second part (fails in the code): for a path whose
nominal location is inside the boundary but whose symlink target resolves
outside every boundary, `validatePath` does *not* return `AccessDenied`: the
symlink denial thrown at src/index.ts line 84 is caught by the `catch` at
line 87, the parent-directory fallback finds the parent `/work` contained,
and the call returns the symlink path as valid. -/
theorem C3_outside_denied_but_symlink_escape_allowed :
    (∀ (cwd home : Text) (allowed : List Text) (rp : Text → Option Text) (p : Text),
        checkAllowed allowed (normalizePath (resolveAbs cwd (expandHome home p))) = false →
        validatePath ⟨cwd, home, allowed, rp⟩ p = Except.error PathError.accessDenied)
    ∧ validatePath envSymlinkEscape (str "/work/link") = Except.ok (str "/work/link")
    ∧ envSymlinkEscape.realpath (str "/work/link") = some (str "/outside/target")
    ∧ checkAllowed envSymlinkEscape.allowed (normalizePath (str "/outside/target")) = false :=
  ⟨fun cwd home allowed rp p h => validatePath_outside ⟨cwd, home, allowed, rp⟩ p h,
   by rfl, by rfl, by decide⟩

theorem C3_witness :
    validatePath ⟨str "/", str "/root", [str "/work"], fun _ => none⟩
      (str "/work/src/../../etc/passwd") = Except.error PathError.accessDenied :=
  C3_outside_denied_but_symlink_escape_allowed.1
    (str "/") (str "/root") [str "/work"] (fun _ => none)
    (str "/work/src/../../etc/passwd") (by decide)

/-- Claim C4, counterexample.  Two denials are not surfaced as
`AccessDenied`: a request whose parent directory realpath-resolves outside
every boundary is answered with the `Parent directory does not exist` error
(the inner `catch` at src/index.ts line 98 swallows the access-denied throw
of line 95), and a denied per-directory `grep_search` step is swallowed by
`catch { continue; }` and rendered as `No matches found`. -/
theorem C4_counterexample :
    validatePath envParentRemap (str "/work/data/new.txt")
      = Except.error PathError.parentNotFound
    ∧ PathError.parentNotFound ≠ PathError.accessDenied
    ∧ grepSearchCLI envParentRemap (fun _ => Except.ok (str "/etc/hosts:1:match"))
        (some (str "/etc")) 100 = str "No matches found" :=
  ⟨by rfl, by decide, by rfl⟩

/-- Claim C4 (amended).  A nominal containment failure is surfaced as
`AccessDenied`, but: a request whose parent directory realpath-resolves
outside every boundary fails with `parentNotFound` (the denial is remapped
by the inner catch), and a `grep_search` whose requested root is denied by
`validatePath` reports `No matches found` instead of the denial. -/
theorem C4_denial_remapped_and_swallowed :
    (∀ (env : Env) (p A rpp : Text),
        A = resolveAbs env.cwd (expandHome env.home p) →
        checkAllowed env.allowed (normalizePath A) = true →
        env.realpath A = none →
        env.realpath (dirname A) = some rpp →
        checkAllowed env.allowed (normalizePath rpp) = false →
        validatePath env p = Except.error PathError.parentNotFound)
    ∧ (∀ (env : Env) (rg : Text → Except Unit Text) (p : Text) (n : Nat) (err : PathError),
        validatePath env p = Except.error err →
        grepSearchCLI env rg (some p) n = str "No matches found") :=
  ⟨fun env p A rpp hA h1 h2 h3 h4 => by
      rw [validatePath_to_fallback env p A hA h1 h2]
      exact parentFallback_parent_outside env A rpp h3 h4,
   fun env rg p n err h => grepSearchCLI_denied env rg p n err h⟩

theorem C4_denial_remapped_and_swallowed_witness :
    validatePath envParentRemap (str "/work/data/new.txt")
        = Except.error PathError.parentNotFound
    ∧ grepSearchCLI envParentRemap (fun _ => Except.ok (str "x"))
        (some (str "/etc")) 7 = str "No matches found" :=
  ⟨C4_denial_remapped_and_swallowed.1 envParentRemap
      (str "/work/data/new.txt") (str "/work/data/new.txt") (str "/private/data")
      (by rfl) (by decide) (by rfl) (by rfl) (by decide),
   C4_denial_remapped_and_swallowed.2 envParentRemap
      (fun _ => Except.ok (str "x")) (str "/etc") 7 PathError.accessDenied (by rfl)⟩

/-- Claim C5.  For a path that does not exist (realpath fails): when the
parent directory's realpath is contained, `validatePath` returns the
normalized absolute form of the request (first part, holds); when the parent
is not resolvable it fails with the parent-not-found error (second part,
holds); but when the parent's realpath is *not* contained, the code answers
`parentNotFound` as well — not the `AccessDenied` the claim states — because
the inner catch at src/index.ts line 98 swallows the access-denied throw of
line 95 (third part, concrete). -/
theorem C5_nonexistent_resolution :
    (∀ (env : Env) (p A rpp : Text),
        A = resolveAbs env.cwd (expandHome env.home p) →
        checkAllowed env.allowed (normalizePath A) = true →
        env.realpath A = none →
        env.realpath (dirname A) = some rpp →
        checkAllowed env.allowed (normalizePath rpp) = true →
        validatePath env p = Except.ok A)
    ∧ (∀ (env : Env) (p A : Text),
        A = resolveAbs env.cwd (expandHome env.home p) →
        checkAllowed env.allowed (normalizePath A) = true →
        env.realpath A = none →
        env.realpath (dirname A) = none →
        validatePath env p = Except.error PathError.parentNotFound)
    ∧ validatePath envParentOutside (str "/work/sub/file.txt")
        = Except.error PathError.parentNotFound
    ∧ envParentOutside.realpath (str "/work/sub") = some (str "/elsewhere/sub")
    ∧ checkAllowed envParentOutside.allowed (normalizePath (str "/elsewhere/sub")) = false :=
  ⟨fun env p A rpp hA h1 h2 h3 h4 => by
      rw [validatePath_to_fallback env p A hA h1 h2]
      exact parentFallback_ok env A rpp h3 h4,
   fun env p A hA h1 h2 h3 => by
      rw [validatePath_to_fallback env p A hA h1 h2]
      exact parentFallback_parent_missing env A h3,
   by rfl, by rfl, by decide⟩

theorem C5_nonexistent_resolution_witness :
    validatePath envExistingParent (str "/work/new.txt")
      = Except.ok (str "/work/new.txt") :=
  C5_nonexistent_resolution.1 envExistingParent
    (str "/work/new.txt") (str "/work/new.txt") (str "/work")
    (by rfl) (by decide) (by rfl) (by rfl) (by decide)

/-- Claim C6.  When an edit's old text matches neither as an exact substring
nor via a line window against the current (progressively modified) content,
the whole `applyFileEdits` call fails with the conflict error carrying the
offending old-text snippet, and the file on disk is unchanged — the
`fs.writeFile` at src/index.ts line 458 sits after the loop, so the throw at
line 445 prevents any write.  The earlier edits' effect is exactly the
in-memory `mid` against which the failing edit was judged. -/
theorem C6_conflict_aborts_without_write (disk : Text) (l1 : List EditOp) (e : EditOp)
    (l2 : List EditOp) (dryRun : Bool) (mid : Text)
    (h1 : applyEditsCore (normalizeLineEndings disk) l1 = Except.ok mid)
    (h2 : containsSub mid (normalizeLineEndings e.oldText) = false)
    (h3 : findMatchIndex (splitLines (normalizeLineEndings e.oldText)) (splitLines mid)
      = none) :
    applyFileEdits disk (l1 ++ e :: l2) dryRun
      = (disk, Except.error (conflictMessage e.oldText)) := by
  have hone : applyOneEdit mid e = Except.error (conflictMessage e.oldText) := by
    simp [applyOneEdit, h2, h3]
  have hcore : applyEditsCore (normalizeLineEndings disk) (l1 ++ e :: l2)
      = Except.error (conflictMessage e.oldText) := by
    rw [applyEditsCore_append, h1]
    simp [Except.bind, applyEditsCore, hone]
  simp [applyFileEdits, hcore]

theorem C6_conflict_aborts_without_write_witness :
    applyFileEdits (str "hello world")
        ([⟨str "hello", str "hi"⟩] ++ ⟨str "zzz", str "q"⟩ :: []) false
      = (str "hello world", Except.error (conflictMessage (str "zzz"))) :=
  C6_conflict_aborts_without_write (str "hello world") [⟨str "hello", str "hi"⟩]
    ⟨str "zzz", str "q"⟩ [] false (str "hi world") (by rfl) (by rfl) (by rfl)

/-- Claim C7.  The edit loop is sequential (splitting the list composes via
`bind`, so each edit is judged against the already-modified content); the
exact-substring strategy rewrites precisely the first occurrence site,
inserting there the `$`-expanded replacement; the line window chosen is the
one with the lowest starting index; and concretely, for edits `[A, B]` where
B's old text only appears after A is applied, the list succeeds while the
reversed list fails with the conflict on B. -/
theorem C7_sequential_first_match :
    (∀ (c : Text) (l1 l2 : List EditOp),
        applyEditsCore c (l1 ++ l2)
          = (applyEditsCore c l1).bind fun m => applyEditsCore m l2)
    ∧ (∀ (a pat b rep : Text),
        (∀ k, k < a.length → startsWithText (List.drop k (a ++ (pat ++ b))) pat = false) →
        replaceFirst pat rep (a ++ (pat ++ b)) = a ++ (getSubstitution pat a b rep ++ b))
    ∧ (∀ (oldLines contentLines : List Text) (i : Nat),
        findMatchIndex oldLines contentLines = some i →
        windowMatch oldLines contentLines i = true ∧
          ∀ j, j < i → windowMatch oldLines contentLines j = false)
    ∧ applyEditsCore (str "one\ntwo")
        [⟨str "one", str "alpha"⟩, ⟨str "alpha", str "beta"⟩]
        = Except.ok (str "beta\ntwo")
    ∧ applyEditsCore (str "one\ntwo")
        [⟨str "alpha", str "beta"⟩, ⟨str "one", str "alpha"⟩]
        = Except.error (conflictMessage (str "alpha")) :=
  ⟨fun c l1 l2 => applyEditsCore_append l1 c l2,
   replaceFirst_first_occ,
   fun ol cl i h => ⟨(findMatchIndex_spec ol cl i h).1, (findMatchIndex_spec ol cl i h).2.1⟩,
   by rfl, by rfl⟩

theorem C7_sequential_first_match_witness :
    replaceFirst (str "a") (str "Z") (str "x" ++ (str "a" ++ str "ab"))
      = str "x" ++ (str "Z" ++ str "ab") :=
  C7_sequential_first_match.2.1 (str "x") (str "a") (str "ab") (str "Z") (by decide)

/-- Claim C8, counterexample.  The claim's concrete scenario is wrong about
the code: replacing old text `"  foo()"` by `"bar()"` at a match site
indented with four spaces does *not* yield `"    bar()"` — the old text is a
plain substring of the four-space line, so the exact-substring strategy
(src/index.ts line 407) preempts the line-window strategy and yields
`"  bar()"`. -/
theorem C8_counterexample :
    applyOneEdit (str "    foo()") ⟨str "  foo()", str "bar()"⟩
      = Except.ok (str "  bar()")
    ∧ str "  bar()" ≠ str "    bar()" :=
  ⟨by rfl, by decide⟩

/-- Claim C8 (amended).  The line-window reconstruction follows the stated
indentation rules — the first replacement line takes the matched line's
leading indentation (which the construction preserves literally), and each
later line either shifts by the zero-floored indent delta when both old and
new lines were indented or keeps its own indentation — but the exact
substring strategy preempts the window strategy, so the claim's concrete
scenario yields `"  bar()"`; the window-based outcome (`"\tbar()"`) arises
only when the exact match fails, e.g. at a tab-indented site. -/
theorem C8_indentation_rules :
    (∀ (w x : Text), (∀ c ∈ w, isWS c = true) → leadingWS (w ++ trimStart x) = w)
    ∧ (∀ (ind : Text) (oldLines : List Text) (newText : Text),
        (buildNewLines ind oldLines newText).getD 0 []
          = ind ++ trimStart ((splitLines newText).getD 0 []))
    ∧ (∀ (ind : Text) (oldLines : List Text) (newText : Text) (j : Nat),
        0 < j → j < (splitLines newText).length →
        (buildNewLines ind oldLines newText).getD j []
          = (if !(leadingWS (oldLines.getD j [])).isEmpty
                && !(leadingWS ((splitLines newText).getD j [])).isEmpty
             then ind
                ++ List.replicate ((leadingWS ((splitLines newText).getD j [])).length
                    - (leadingWS (oldLines.getD j [])).length) ' '
                ++ trimStart ((splitLines newText).getD j [])
             else (splitLines newText).getD j []))
    ∧ applyOneEdit (str "    foo()") ⟨str "  foo()", str "bar()"⟩
        = Except.ok (str "  bar()")
    ∧ applyOneEdit (str "\tfoo()") ⟨str "  foo()", str "bar()"⟩
        = Except.ok (str "\tbar()") := by
  refine ⟨leadingWS_ws_append, ?_, ?_, by rfl, by rfl⟩
  · intro ind ol new
    cases hsp : splitLines new with
    | nil => exact absurd hsp (splitOnChar_ne_nil _ _)
    | cons h t => simp [buildNewLines, hsp, mapWithIndex, buildLine]
  · intro ind ol new j hj0 hjlen
    have hmap := mapWithIndex_getD (buildLine ind ol) (splitLines new) 0 j hjlen
    rw [buildNewLines, hmap]
    rw [buildLine, if_neg (by omega)]
    simp [Nat.zero_add]

theorem C8_indentation_rules_witness :
    leadingWS (str "  " ++ trimStart (str " x")) = str "  " :=
  C8_indentation_rules.1 (str "  ") (str " x") (by decide)

/-- Claim C9, counterexample.  The round trip is not unconditional:
JavaScript `replace` expands `$`-substitution patterns in the replacement
even with a plain-string pattern, so replacing the whole content `x` by the
new text `$&y` writes `xy` — not `$&y` — to disk. -/
theorem C9_counterexample :
    applyFileEdits (str "x") [⟨str "x", str "$&y"⟩] false
      = (str "xy", Except.ok (str "xy"))
    ∧ str "xy" ≠ str "$&y" :=
  ⟨by rfl, by decide⟩

/-- Claim C9 (amended).  Replacing the whole file text by `newText` with
`dryRun = false` leaves on disk the CRLF-normalized `newText` with its
JavaScript `$`-substitution patterns expanded against the whole-content
match; in particular, when the normalized `newText` contains no dollar sign,
the file is exactly the normalized `newText`. -/
theorem C9_round_trip_substitution :
    (∀ t n : Text,
        applyFileEdits t [⟨t, n⟩] false
          = (getSubstitution (normalizeLineEndings t) [] [] (normalizeLineEndings n),
             Except.ok (getSubstitution (normalizeLineEndings t) [] []
               (normalizeLineEndings n))))
    ∧ (∀ t n : Text, '$' ∉ normalizeLineEndings n →
        applyFileEdits t [⟨t, n⟩] false
          = (normalizeLineEndings n, Except.ok (normalizeLineEndings n))) := by
  have hgen : ∀ t n : Text,
      applyFileEdits t [⟨t, n⟩] false
        = (getSubstitution (normalizeLineEndings t) [] [] (normalizeLineEndings n),
           Except.ok (getSubstitution (normalizeLineEndings t) [] []
             (normalizeLineEndings n))) := by
    intro t n
    have hone : applyOneEdit (normalizeLineEndings t) ⟨t, n⟩
        = Except.ok (getSubstitution (normalizeLineEndings t) [] []
            (normalizeLineEndings n)) := by
      simp [applyOneEdit, containsSub_self, replaceFirst_whole]
    simp [applyFileEdits, applyEditsCore, hone]
  refine ⟨hgen, fun t n h => ?_⟩
  rw [hgen t n, getSubstitution_no_dollar _ _ _ _ h]

theorem C9_round_trip_substitution_witness :
    applyFileEdits (str "a\r\nb") [⟨str "a\r\nb", str "hi"⟩] false
      = (str "hi", Except.ok (str "hi")) :=
  C9_round_trip_substitution.2 (str "a\r\nb") (str "hi") (by decide)

/-- Claim C10.  A successful `dryRun = false` call always rewrites the file
with the CRLF-normalized content even when the edit list is empty, so a file
containing CRLF line endings is modified by a zero-edit call. -/
theorem C10_rewrite_normalized :
    (∀ disk : Text,
        applyFileEdits disk [] false
          = (normalizeLineEndings disk, Except.ok (normalizeLineEndings disk)))
    ∧ applyFileEdits (str "a\r\nb") [] false = (str "a\nb", Except.ok (str "a\nb"))
    ∧ str "a\nb" ≠ str "a\r\nb" :=
  ⟨fun _ => rfl, by rfl, by decide⟩

end SecureTools
